import Mathlib

/-
Verification development for the room-membership reconciliation and
authorization engine of the synapse-modules repository.

The definitions below are a shallow embedding of:
  * src/monkey_patches/event_auth.py      (membership / power-level authorization)
  * src/audiences/audiences_batch_membership_processor.py  (reconciliation)
  * src/archive_rooms/handler.py          (archival controller)

Conventions of the embedding:
  * user identifiers and event-type strings are Lean strings;
  * a Python dict of user power levels is a list of key/value pairs with
    unique keys and first-match lookup (matching dict semantics);
  * Python exceptions become Except / Option results; each distinct raise
    site of the source is one constructor of an error type;
  * external store queries (room blocked flag, local users in the room)
    are passed in as explicit arguments.
-/

set_option autoImplicit false

namespace SynapseModules

abbrev UserId := String

/-- Membership states of synapse.api.constants.Membership as used by the
sources (join, leave, invite, ban, knock). -/
inductive MembershipState where
  | join
  | leave
  | invite
  | ban
  | knock
deriving DecidableEq, Repr

/-- Content of an m.room.power_levels event, modelled as already validated
(the source validates that all user ids parse and all levels are integers
before any of the checks embedded here run; a typed model satisfies that
validation by construction). `users`, `events` and `notifications` are the
dict-valued keys; the remaining fields are the scalar level keys read by
the patched check, each absent (`none`) or an integer. -/
structure PLContent where
  users : List (UserId × Int) := []
  events : List (String × Int) := []
  notifications : List (String × Int) := []
  usersDefault : Option Int := none
  eventsDefault : Option Int := none
  stateDefault : Option Int := none
  banLevel : Option Int := none
  redactLevel : Option Int := none
  kickLevel : Option Int := none
  inviteLevel : Option Int := none
deriving DecidableEq, Repr

/-- The auth-event state map passed to the patched checks: the current
m.room.power_levels content (if any), the room creator (from m.room.create,
used by the host power-level fallback), and the current membership state of
each user (from the m.room.member state events). -/
structure AuthEvents where
  powerLevels : Option PLContent := none
  creator : Option UserId := none
  members : List (UserId × MembershipState) := []
deriving DecidableEq, Repr

/-- First-match lookup in an association list, the semantics of a Python
dict `get` for dicts (whose keys are unique). -/
def lookupL (k : String) (l : List (String × Int)) : Option Int :=
  (l.find? (fun p => p.1 = k)).map (fun p => p.2)

/-- The membership state of a user according to the auth events (`None`
when the user has no member event). -/
def memberOf (ae : AuthEvents) (u : UserId) : Option MembershipState :=
  (ae.members.find? (fun p => p.1 = u)).map (fun p => p.2)

/-- Host helper `get_user_power_level` (synapse/event_auth.py), used by the
patched checks: with a power-levels event present, the entry of the user in
`users`, else `users_default`, else 0; with no power-levels event, the room
creator has level 100 and everyone else 0. -/
def getUserPowerLevel (ae : AuthEvents) (u : UserId) : Int :=
  match ae.powerLevels with
  | some pl => (lookupL u pl.users).getD (pl.usersDefault.getD 0)
  | none => if ae.creator = some u then 100 else 0

/-- Host helper `get_named_level`: the named scalar level of the current
power-levels event, or the supplied default when the event or the key is
absent. -/
def getNamedLevel (sel : PLContent → Option Int) (dflt : Int) (ae : AuthEvents) : Int :=
  match ae.powerLevels with
  | some pl => (sel pl).getD dflt
  | none => dflt

/-- The fields of an event that the patched authorization functions read:
its type string, the membership value of its content (for member events),
`sender` (= `user_id`), `state_key` (the target user for member events) and
the optional `reason` of its content. -/
structure Event where
  etype : String
  membership : Option MembershipState := none
  sender : UserId
  stateKey : UserId
  reason : Option String := none
deriving DecidableEq, Repr

def memberEventType : String := "m.room.member"

def accountDeactivatedReason : String := "Account deactivated"

/-- The distinct error raise sites of src/monkey_patches/event_auth.py, one
constructor per raise statement:
  * `humanKicksBot`     : AuthError 403, human kicking a bot (line 283);
  * `soleAdmin`         : AuthError 403, last human admin leaving (line 311);
  * `notJoined`         : UnstableSpecAuthError, M_NOT_JOINED (line 356);
  * `cannotUnban`       : UnstableSpecAuthError, M_INSUFFICIENT_POWER (line 363);
  * `cannotKick`        : UnstableSpecAuthError, M_INSUFFICIENT_POWER (line 373);
  * `humanDemotesBot`   : AuthError 403, human demoting bot admin (line 145);
  * `noHumanAdminsLeft` : AuthError 403, no human admin would remain (line 148);
  * `opsLevelTooHigh`   : AuthError 403, ops level greater than own (line 269). -/
inductive AuthFailure where
  | humanKicksBot
  | soleAdmin
  | notJoined
  | cannotUnban
  | cannotKick
  | humanDemotesBot
  | noHumanAdminsLeft
  | opsLevelTooHigh
deriving DecidableEq, Repr

/-- Source `_raise_if_human_kicks_bot`: a sender who is a bot passes; otherwise
the leave is rejected when its target (`state_key`) is a bot. -/
def raiseIfHumanKicksBot (bots : Finset UserId) (ev : Event) : Except AuthFailure Unit :=
  if ev.sender ∈ bots then .ok ()
  else if ev.stateKey ∈ bots then .error .humanKicksBot
  else .ok ()

/-- The set comprehension of `_raise_if_last_human_kicks_self`: users of the
current power-levels mapping other than the acting user that are not bots
and hold level 100. -/
def otherHumanAdminIds (bots : Finset UserId) (userId : UserId) (pl : PLContent) : List UserId :=
  (pl.users.filter (fun p => p.1 ≠ userId ∧ p.1 ∉ bots ∧ p.2 = 100)).map (fun p => p.1)

/-- Source `_raise_if_last_human_kicks_self`: with no current power-levels state the
leave passes; a leave whose content reason is the account-deactivated marker
passes; otherwise the leave is rejected when no other human admin exists. -/
def raiseIfLastHumanKicksSelf (bots : Finset UserId) (ev : Event) (ae : AuthEvents) :
    Except AuthFailure Unit :=
  match ae.powerLevels with
  | none => .ok ()
  | some pl =>
    if ev.reason = some accountDeactivatedReason then .ok ()
    else if otherHumanAdminIds bots ev.sender pl = [] then .error .soleAdmin
    else .ok ()

/-- Source `_is_leave_allowed`: the patched authorization of a leave member event,
mirroring the source control flow statement by statement (bot-kick guard,
invited-self shortcut, joined check, unban check, kick check with the
patched strict-to-nonstrict comparison, self-leave sole-admin guard). -/
def isLeaveAllowed (bots : Finset UserId) (ev : Event) (ae : AuthEvents) :
    Except AuthFailure Unit :=
  match raiseIfHumanKicksBot bots ev with
  | .error e => .error e
  | .ok _ =>
    let caller := memberOf ae ev.sender
    let callerInRoom := caller = some MembershipState.join
    let callerInvited := caller = some MembershipState.invite
    let targetBanned := memberOf ae ev.stateKey = some MembershipState.ban
    let userLevel := getUserPowerLevel ae ev.sender
    let targetLevel := getUserPowerLevel ae ev.stateKey
    let banLevel := getNamedLevel (fun pl => pl.banLevel) 50 ae
    if callerInvited ∧ ev.stateKey = ev.sender then .ok ()
    else if ¬ callerInRoom then .error .notJoined
    else if targetBanned ∧ userLevel < banLevel then .error .cannotUnban
    else if ev.stateKey ≠ ev.sender then
      let kickLevel := getNamedLevel (fun pl => pl.kickLevel) 50 ae
      if userLevel < kickLevel ∨ userLevel < targetLevel then .error .cannotKick
      else .ok ()
    else raiseIfLastHumanKicksSelf bots ev ae

/-- The set of admins (entries at level 100) of a power-levels users
mapping, as computed by `_raise_if_human_demotes_bot_or_last_human`. -/
def adminIds (users : List (UserId × Int)) : Finset UserId :=
  ((users.filter (fun p => p.2 = 100)).map (fun p => p.1)).toFinset

/-- Source `_raise_if_human_demotes_bot_or_last_human`: a bot sender passes; a
non-bot sender is rejected when the change removes a bot from the admin
set, and rejected when no non-bot admin would remain. -/
def raiseIfHumanDemotesBotOrLastHuman (bots : Finset UserId) (sender : UserId)
    (newUsers curUsers : List (UserId × Int)) : Except AuthFailure Unit :=
  if sender ∈ bots then .ok ()
  else
    let currentAdminIds := adminIds curUsers
    let updatedAdminIds := adminIds newUsers
    if ((currentAdminIds \ updatedAdminIds) ∩ bots).Nonempty then .error .humanDemotesBot
    else if updatedAdminIds \ bots = ∅ then .error .noHumanAdminsLeft
    else .ok ()

/-- One iteration of the level-bound loop of `_check_power_levels`: the
check is skipped when the old and new values are both present and equal,
and fails when a present old or new value exceeds the level of the acting
user. -/
def levelCheckFails (userLevel : Int) (oldL newL : Option Int) : Bool :=
  match oldL, newL with
  | some o, some n =>
    if n = o then false else decide (o > userLevel) || decide (n > userLevel)
  | some o, none => decide (o > userLevel)
  | none, some n => decide (n > userLevel)
  | none, none => false

/-- The level-bound loop of `_check_power_levels` over every key of a
dict-valued entry (`users`, `events`, `notifications`): the source iterates
over the union of the old and the new key sets. -/
def anyKeyCheckFails (userLevel : Int) (old new : List (String × Int)) : Bool :=
  ((old.map (fun p => p.1)) ++ (new.map (fun p => p.1))).any
    (fun k => levelCheckFails userLevel (lookupL k old) (lookupL k new))

/-- The level-bound checks of `_check_power_levels` for the seven scalar
keys (users_default, events_default, state_default, ban, redact, kick,
invite). -/
def scalarChecksFail (userLevel : Int) (old new : PLContent) : Bool :=
  levelCheckFails userLevel old.usersDefault new.usersDefault ||
  levelCheckFails userLevel old.eventsDefault new.eventsDefault ||
  levelCheckFails userLevel old.stateDefault new.stateDefault ||
  levelCheckFails userLevel old.banLevel new.banLevel ||
  levelCheckFails userLevel old.redactLevel new.redactLevel ||
  levelCheckFails userLevel old.kickLevel new.kickLevel ||
  levelCheckFails userLevel old.inviteLevel new.inviteLevel

/-- Source `_check_power_levels` (the patched replacement of the host function):
after validation (satisfied by the typed model), with no current
power-levels state the event passes; otherwise the patched
bot-and-last-human guard runs first, then the inherited level-bound checks
against the own level of the acting user. `newContent` is the content of the
proposed event; `limitNotifications` is the room-version flag gating the
notifications checks. The patch also deletes the ban of the host on removing an
ops level equal to your own, so no such check appears here. -/
def checkPowerLevels (bots : Finset UserId) (limitNotifications : Bool)
    (ev : Event) (newContent : PLContent) (ae : AuthEvents) : Except AuthFailure Unit :=
  match ae.powerLevels with
  | none => .ok ()
  | some curC =>
    match raiseIfHumanDemotesBotOrLastHuman bots ev.sender newContent.users curC.users with
    | .error e => .error e
    | .ok _ =>
      let userLevel := getUserPowerLevel ae ev.sender
      if scalarChecksFail userLevel curC newContent
          || anyKeyCheckFails userLevel curC.users newContent.users
          || anyKeyCheckFails userLevel curC.events newContent.events
          || (limitNotifications && anyKeyCheckFails userLevel curC.notifications newContent.notifications) then
        .error .opsLevelTooHigh
      else .ok ()

instance {ε α : Type} [DecidableEq ε] [DecidableEq α] : DecidableEq (Except ε α)
  | .ok a, .ok b =>
    if h : a = b then .isTrue (by rw [h]) else .isFalse (by simp [h])
  | .ok _, .error _ => .isFalse (by simp)
  | .error _, .ok _ => .isFalse (by simp)
  | .error e, .error f =>
    if h : e = f then .isTrue (by rw [h]) else .isFalse (by simp [h])

/-- The outcome of the patched `_is_membership_change_allowed` dispatch:
either the event is allowed with no check at all, or the patched leave
check decides it, or it is delegated to the saved original host function. -/
inductive Decision where
  | allowedWithoutCheck
  | leaveChecked (r : Except AuthFailure Unit)
  | delegatedToOriginal
deriving DecidableEq, Repr

/-- Patched `_is_membership_change_allowed`: a leave member event sent by a
bot about a different user is allowed without invoking any check; any other
leave member event goes to `isLeaveAllowed`; everything else goes to the
saved original host function. -/
def isMembershipChangeAllowed (bots : Finset UserId) (ev : Event) (ae : AuthEvents) : Decision :=
  if ¬ (ev.etype = memberEventType ∧ ev.membership = some MembershipState.leave
        ∧ ev.sender ∈ bots ∧ ev.stateKey ≠ ev.sender) then
    if ev.etype = memberEventType ∧ ev.membership = some MembershipState.leave then
      .leaveChecked (isLeaveAllowed bots ev ae)
    else .delegatedToOriginal
  else .allowedWithoutCheck

/-! ## AudiencesBatchMembershipProcessor
(src/audiences/audiences_batch_membership_processor.py) -/

/-- The errors of synapse.api.errors that the membership processing code
distinguishes: `unstableAuth` (UnstableSpecAuthError, carrying its errcode
and message), `limitExceeded` (LimitExceededError with its optional
retry_after_ms), `authError` (plain AuthError 403) and any other error. -/
inductive MembershipCallError where
  | unstableAuth (errcode : String) (msg : String)
  | limitExceeded (retryAfterMs : Option Nat)
  | authError (msg : String)
  | otherError (msg : String)
deriving DecidableEq, Repr

def MembershipCallError.isUnstableAuth : MembershipCallError → Bool
  | .unstableAuth _ _ => true
  | _ => false

/-- The outcome of processing one member in
`_process_batch_memberships_type`: the backoff sleeps performed (in
milliseconds, as supplied by the server) and the error that escaped the
member iteration, if any. -/
structure MemberOutcome where
  sleeps : List Nat := []
  err : Option MembershipCallError := none
deriving DecidableEq, Repr

/-- One iteration of the loop of `_process_batch_memberships_type`. The
update call is an oracle `upd mxid attempt` giving the response of the host to
the first call (attempt 0) and to the retry (attempt 1).
Mirrors the source exception handling exactly:
  * an UnstableSpecAuthError falls through whatever its message, because
    the handler body `if "already in the room" in str(e.msg): pass` does
    nothing in either branch of the conditional;
  * a LimitExceededError without retry_after_ms likewise falls through,
    because the handler body is a single `if` with no else;
  * a LimitExceededError with retry_after_ms sleeps and retries once, and
    any error of the retry escapes (the retry is outside the try body);
  * every other error escapes. -/
def processMember (upd : UserId → Nat → Except MembershipCallError Unit) (mxid : UserId) :
    MemberOutcome :=
  match upd mxid 0 with
  | .ok _ => {}
  | .error (.unstableAuth _ _) => {}
  | .error (.limitExceeded none) => {}
  | .error (.limitExceeded (some ms)) =>
    match upd mxid 1 with
    | .ok _ => { sleeps := [ms] }
    | .error e => { sleeps := [ms], err := some e }
  | .error e => { err := some e }

/-- The outcome of `_process_batch_memberships_type` over a batch: the
members for which an update call was issued (in order), the sleeps
performed, and the error that aborted the batch, if any. -/
structure BatchOutcome where
  attempted : List UserId := []
  sleeps : List Nat := []
  err : Option MembershipCallError := none
deriving DecidableEq, Repr

/-- Source `_process_batch_memberships_type`: process the members in list order;
an error escaping one member iteration propagates out of the loop,
leaving the rest of the batch unprocessed. -/
def processBatchMembershipsType (upd : UserId → Nat → Except MembershipCallError Unit) :
    List UserId → BatchOutcome
  | [] => {}
  | mxid :: rest =>
    let o := processMember upd mxid
    match o.err with
    | some e => { attempted := [mxid], sleeps := o.sleeps, err := some e }
    | none =>
      let r := processBatchMembershipsType upd rest
      { attempted := mxid :: r.attempted, sleeps := o.sleeps ++ r.sleeps, err := r.err }

/-- The invite half of the diff of `process_batch_memberships`: the
comprehension `[mxid for mxid in desired_room_members if mxid and mxid not
in joined]` (note: filtered against the joined set only, with falsy —
empty — identifiers dropped). -/
def membersToAdd (desired joined : Finset UserId) : Finset UserId :=
  desired.filter (fun m => m ≠ "" ∧ m ∉ joined)

/-- The removal half of the diff of `process_batch_memberships`: members of
`invited | joined` that are not desired and not bots (falsy identifiers
dropped). -/
def membersToRemove (desired invited joined bots : Finset UserId) : Finset UserId :=
  (invited ∪ joined).filter (fun m => m ≠ "" ∧ m ∉ desired ∧ m ∉ bots)

/-- A membership action of the reconciler, tagged by kind. -/
inductive ReconcileAction where
  | inviteUser (mxid : UserId)
  | leaveUser (mxid : UserId)
deriving DecidableEq, Repr

/-- The sequence of membership actions of one `process_batch_memberships`
run: all invites (the to-add diff, in some iteration order of the Python
set, here sorted), followed by all leaves (the to-remove diff). -/
def processBatchMemberships (desired invited joined bots : Finset UserId) :
    List ReconcileAction :=
  ((membersToAdd desired joined).sort (· ≤ ·)).map ReconcileAction.inviteUser
    ++ ((membersToRemove desired invited joined bots).sort (· ≤ ·)).map ReconcileAction.leaveUser

/-- Modelled from the spec: the `updateMembership` host interface (spec
section 6) — an applied invite makes the target invited, an applied leave
makes the target neither invited nor joined; the host code implementing
this is the external chat server, not part of this repository. The value is
the (invited, joined) pair after one successful `process_batch_memberships`
run, with no intervening change (in particular no invite acceptance). -/
def applyReconcileRun (desired invited joined bots : Finset UserId) :
    Finset UserId × Finset UserId :=
  let toAdd := membersToAdd desired joined
  let toRemove := membersToRemove desired invited joined bots
  ((invited ∪ toAdd) \ toRemove, joined \ toRemove)

/-! ## ArchiveRoomHandler (src/archive_rooms/handler.py) -/

/-- The membership filter of `update_memberships_directly`: the user is not
a bot, their membership is joined, left or invited, and they are not the
requester — exactly the members for which an update call is issued. -/
def qualifiesForChange (bots : List UserId) (requester : UserId)
    (p : UserId × MembershipState) : Bool :=
  !(bots.contains p.1)
    && (p.2 == MembershipState.join || p.2 == MembershipState.leave
        || p.2 == MembershipState.invite)
    && (p.1 != requester)

/-- The outcome of `update_memberships_directly` over the local users of
the room: the users for which an update call was issued (in order), the users
forgotten after a successful leave, and the error that aborted the loop, if
any. -/
structure ArchiveBatchOutcome where
  issued : List UserId := []
  forgotten : List UserId := []
  err : Option MembershipCallError := none
deriving DecidableEq, Repr

/-- Source `update_memberships_directly`: for each local user of the room in list
order, skip bots, skip memberships other than joined/left/invited, skip the
requester; otherwise issue the update call. An UnstableSpecAuthError of the
call is swallowed (the user already has the desired membership); any other
error escapes the loop, leaving the remaining users unprocessed. On a
successful call with `archive` set, the target is forgotten. -/
def updateMembershipsDirectly (bots : List UserId) (requester : UserId)
    (upd : UserId → Except MembershipCallError Unit) (archive : Bool) :
    List (UserId × MembershipState) → ArchiveBatchOutcome
  | [] => {}
  | (u, m) :: rest =>
    if bots.contains u then updateMembershipsDirectly bots requester upd archive rest
    else if m = MembershipState.join ∨ m = MembershipState.leave
        ∨ m = MembershipState.invite then
      if u = requester then updateMembershipsDirectly bots requester upd archive rest
      else
        match upd u with
        | .ok _ =>
          let r := updateMembershipsDirectly bots requester upd archive rest
          { issued := u :: r.issued,
            forgotten := (if archive then [u] else []) ++ r.forgotten,
            err := r.err }
        | .error (.unstableAuth _ _) =>
          let r := updateMembershipsDirectly bots requester upd archive rest
          { issued := u :: r.issued, forgotten := r.forgotten, err := r.err }
        | .error e => { issued := [u], err := some e }
    else updateMembershipsDirectly bots requester upd archive rest

/-- The externally visible effects of `handle_put`, in order. -/
inductive ArchiveEffect where
  | blockRoom (requester : UserId)
  | unblockRoom
  | membershipChange (target : UserId) (action : MembershipState)
  | runRestoreInBackground
  | setRoomIsPublic (b : Bool)
deriving DecidableEq, Repr

/-- Source `handle_put`: with `archive` set, block the room (the authoritative
archival act), then run `update_memberships_directly` issuing leaves; with
`archive` unset, unblock the room and, when the audiences services are
enabled, start the restore in the background. Afterwards, when the join
rule of the room is public, set the is-public room flag to the negation of
`archive`. An error escaping `update_memberships_directly` propagates out
of `handle_put`, so its join-rule step never runs in that case. -/
def handlePut (bots : List UserId) (requester : UserId)
    (upd : UserId → Except MembershipCallError Unit) (audiencesEnabled : Bool)
    (users : List (UserId × MembershipState)) (joinRulePublic : Bool)
    (archive : Bool) : List ArchiveEffect × Option MembershipCallError :=
  if archive then
    let o := updateMembershipsDirectly bots requester upd true users
    let pre := ArchiveEffect.blockRoom requester
      :: o.issued.map (fun u => ArchiveEffect.membershipChange u MembershipState.leave)
    match o.err with
    | some e => (pre, some e)
    | none =>
      (pre ++ (if joinRulePublic then [ArchiveEffect.setRoomIsPublic false] else []), none)
  else
    ([ArchiveEffect.unblockRoom]
      ++ (if audiencesEnabled then [ArchiveEffect.runRestoreInBackground] else [])
      ++ (if joinRulePublic then [ArchiveEffect.setRoomIsPublic true] else []), none)

/-! ## EventAuthPatches.on_new_event (orphaned-admin reassignment) -/

/-- The replacement m.room.power_levels event emitted by
`_delete_user_from_power_levels`: its content and its sender (the room id,
type and empty state key are fixed). -/
structure EmittedPL where
  content : PLContent
  sender : UserId
deriving DecidableEq, Repr

/-- The admin-id comprehension of `_find_sender_in_room`: users of the new
content at level 100 other than the audiences bot, in mapping order. -/
def nonBotAdminIds (audiencesBotId : UserId) (content : PLContent) : List UserId :=
  (content.users.filter (fun p => p.2 = 100 ∧ p.1 ≠ audiencesBotId)).map (fun p => p.1)

/-- Source `_find_sender_in_room`: the audiences bot when it is an admin of the
new content and a local member of the room; otherwise the first admin of
the new content (other than the bot, in mapping order) that is a local
member of the room; otherwise the sender of the leave event. `inRoom` is
the set of local members of the room, the store query
`check_local_user_in_room`. -/
def findSenderInRoom (serverName : String) (inRoom : List UserId) (ev : Event)
    (content : PLContent) : UserId :=
  let audiencesBotId := "@audiences_bot:" ++ serverName
  let audiencesBotIsAdmin := lookupL audiencesBotId content.users = some 100
  let audiencesBotInRoom := inRoom.contains audiencesBotId
  if audiencesBotIsAdmin ∧ audiencesBotInRoom then audiencesBotId
  else
    match (nonBotAdminIds audiencesBotId content).find? (fun a => inRoom.contains a) with
    | some adminId => adminId
    | none => ev.sender

/-- Source `_delete_user_from_power_levels`: no event is emitted when the leave
target has no entry in the users mapping, or when the room is blocked
(archived); otherwise one replacement power-levels event is emitted whose
content is the old content with the users entry of the target deleted and whose
sender is `findSenderInRoom` of the new content. -/
def deleteUserFromPowerLevels (serverName : String) (blocked : Bool) (inRoom : List UserId)
    (ev : Event) (pl : PLContent) : Option EmittedPL :=
  if lookupL ev.stateKey pl.users = none then none
  else if blocked then none
  else
    let content := { pl with users := pl.users.filter (fun p => p.1 ≠ ev.stateKey) }
    some { content := content, sender := findSenderInRoom serverName inRoom ev content }

/-- Source `on_new_event`: only member events with membership leave are handled,
and only when the state has an m.room.power_levels event. -/
def onNewEvent (serverName : String) (blocked : Bool) (inRoom : List UserId)
    (ev : Event) (ae : AuthEvents) : Option EmittedPL :=
  if ev.etype ≠ memberEventType then none
  else if ev.membership ≠ some MembershipState.leave then none
  else
    match ae.powerLevels with
    | some pl => deleteUserFromPowerLevels serverName blocked inRoom ev pl
    | none => none

/-! ## Helper lemmas -/

theorem raiseIfHumanKicksBot_self (bots : Finset UserId) (ev : Event)
    (hself : ev.stateKey = ev.sender) :
    raiseIfHumanKicksBot bots ev = .ok () := by
  unfold raiseIfHumanKicksBot
  rw [hself]
  split_ifs <;> simp_all

theorem isLeaveAllowed_self_joined (bots : Finset UserId) (ev : Event) (ae : AuthEvents)
    (hself : ev.stateKey = ev.sender)
    (hjoin : memberOf ae ev.sender = some MembershipState.join) :
    isLeaveAllowed bots ev ae = raiseIfLastHumanKicksSelf bots ev ae := by
  unfold isLeaveAllowed
  rw [raiseIfHumanKicksBot_self bots ev hself]
  simp [hself, hjoin]

/-! ## Claim theorems -/

/-- C10 (confirmed): a leave member event whose sender is a bot and whose
target is a different user is allowed by the patched membership-change
authorization without invoking either the patched leave checks or the
original host check. -/
theorem c10_bot_leave_bypasses_all_checks (bots : Finset UserId) (ev : Event)
    (ae : AuthEvents) (h1 : ev.etype = memberEventType)
    (h2 : ev.membership = some MembershipState.leave)
    (h3 : ev.sender ∈ bots) (h4 : ev.stateKey ≠ ev.sender) :
    isMembershipChangeAllowed bots ev ae = Decision.allowedWithoutCheck := by
  simp [isMembershipChangeAllowed, h1, h2, h3, h4]

/-- Witness for C10: a concrete bot-sent kick is allowed without any
check. -/
theorem c10_witness :
    isMembershipChangeAllowed ({"@bot:s"} : Finset UserId)
      { etype := memberEventType, membership := some MembershipState.leave,
        sender := "@bot:s", stateKey := "@a:s" }
      {} = Decision.allowedWithoutCheck :=
  c10_bot_leave_bypasses_all_checks _ _ _ rfl rfl (by decide) (by decide)

/-- C1 counterexample: a self-leave that reaches the leave authorizer with
the actor merely invited (not joined) is allowed by the early
invited-caller shortcut of `_is_leave_allowed`, although the actor carries
no account-deactivated marker and the power-levels mapping contains no
non-bot user other than the actor at level 100 — the claim would require
this self-leave to be denied with the sole-admin reason. -/
theorem c1_counterexample :
    isLeaveAllowed (∅ : Finset UserId)
      { etype := memberEventType, membership := some MembershipState.leave,
        sender := "@a:s", stateKey := "@a:s", reason := none }
      { powerLevels := some { users := [("@a:s", 100)] },
        members := [("@a:s", MembershipState.invite)] }
      = Except.ok ()
    ∧ otherHumanAdminIds (∅ : Finset UserId) "@a:s" { users := [("@a:s", 100)] } = [] :=
  ⟨by decide, by decide⟩

/-- C1 (amended): for every self-leave checked by the leave authorizer
whose actor is currently joined and whose room has a power-levels state: if
the content carries the account-deactivated reason marker the leave is
allowed; otherwise it is denied with the sole-admin reason exactly when the
power-levels mapping contains no non-bot user other than the actor at
level 100, and allowed otherwise. -/
theorem c1_self_leave_amended (bots : Finset UserId) (ev : Event) (ae : AuthEvents)
    (pl : PLContent)
    (hself : ev.stateKey = ev.sender)
    (hjoin : memberOf ae ev.sender = some MembershipState.join)
    (hpl : ae.powerLevels = some pl) :
    (ev.reason = some accountDeactivatedReason → isLeaveAllowed bots ev ae = .ok ())
    ∧ (ev.reason ≠ some accountDeactivatedReason →
        ((isLeaveAllowed bots ev ae = .error AuthFailure.soleAdmin
            ↔ otherHumanAdminIds bots ev.sender pl = [])
         ∧ (isLeaveAllowed bots ev ae = .ok ()
            ↔ otherHumanAdminIds bots ev.sender pl ≠ []))) := by
  rw [isLeaveAllowed_self_joined bots ev ae hself hjoin]
  unfold raiseIfLastHumanKicksSelf
  rw [hpl]
  constructor
  · intro hr
    simp [hr]
  · intro hr
    simp only [hr, if_false]
    by_cases h : otherHumanAdminIds bots ev.sender pl = [] <;> simp [h]

/-- Witness for C1: with a second human admin present, the self-leave of a joined
actor is allowed. -/
theorem c1_witness :
    isLeaveAllowed (∅ : Finset UserId)
      { etype := memberEventType, membership := some MembershipState.leave,
        sender := "@a:s", stateKey := "@a:s", reason := none }
      { powerLevels := some { users := [("@a:s", 100), ("@b:s", 100)] },
        members := [("@a:s", MembershipState.join)] }
      = Except.ok () :=
  ((c1_self_leave_amended (∅ : Finset UserId)
      { etype := memberEventType, membership := some MembershipState.leave,
        sender := "@a:s", stateKey := "@a:s", reason := none }
      { powerLevels := some { users := [("@a:s", 100), ("@b:s", 100)] },
        members := [("@a:s", MembershipState.join)] }
      { users := [("@a:s", 100), ("@b:s", 100)] }
      rfl (by decide) rfl).2 (by decide)).2.mpr (by decide)

/-- C3 counterexample: a kick by a non-bot, non-joined actor whose target
is a bot (target not banned) is denied with the bot-protection reason, not
with NOT_JOINED as the claim requires for a non-joined actor. -/
theorem c3_counterexample :
    isLeaveAllowed ({"@bot:s"} : Finset UserId)
      { etype := memberEventType, membership := some MembershipState.leave,
        sender := "@a:s", stateKey := "@bot:s", reason := none }
      { powerLevels := some { users := [("@bot:s", 100)] },
        members := [("@bot:s", MembershipState.join)] }
      = Except.error AuthFailure.humanKicksBot
    ∧ memberOf
      { powerLevels := some { users := [("@bot:s", 100)] },
        members := [("@bot:s", MembershipState.join)] } "@a:s" = none
    ∧ ("@a:s" : UserId) ∉ ({"@bot:s"} : Finset UserId)
    ∧ ("@bot:s" : UserId) ≠ ("@a:s" : UserId) :=
  ⟨by decide, by decide, by decide, by decide⟩

/-- C3 (amended): for every kick (leave with actor distinct from target,
target not banned): the bot-protection check runs first — a non-bot actor
kicking a bot is denied with the bot-protection reason regardless of joined
status and power levels; otherwise a non-joined actor is denied with
NOT_JOINED; otherwise the kick is denied with INSUFFICIENT_POWER exactly
when the power of the actor is below the kick level or below the power of the target
(the permitting comparison is non-strict, so equal-power peers may kick
each other), and allowed otherwise. -/
theorem c3_kick_amended (bots : Finset UserId) (ev : Event) (ae : AuthEvents)
    (hkick : ev.stateKey ≠ ev.sender)
    (hnb : memberOf ae ev.stateKey ≠ some MembershipState.ban) :
    (ev.sender ∉ bots → ev.stateKey ∈ bots →
       isLeaveAllowed bots ev ae = .error AuthFailure.humanKicksBot)
    ∧ ((ev.sender ∈ bots ∨ ev.stateKey ∉ bots) →
        (memberOf ae ev.sender ≠ some MembershipState.join →
           isLeaveAllowed bots ev ae = .error AuthFailure.notJoined)
        ∧ (memberOf ae ev.sender = some MembershipState.join →
            ((isLeaveAllowed bots ev ae = .error AuthFailure.cannotKick
               ↔ (getUserPowerLevel ae ev.sender < getNamedLevel (fun pl => pl.kickLevel) 50 ae
                   ∨ getUserPowerLevel ae ev.sender < getUserPowerLevel ae ev.stateKey))
             ∧ (isLeaveAllowed bots ev ae = .ok ()
               ↔ ¬ (getUserPowerLevel ae ev.sender < getNamedLevel (fun pl => pl.kickLevel) 50 ae
                   ∨ getUserPowerLevel ae ev.sender < getUserPowerLevel ae ev.stateKey))))) := by
  constructor
  · intro hs ht
    unfold isLeaveAllowed raiseIfHumanKicksBot
    simp [hs, ht]
  · intro hguard
    have hbot : raiseIfHumanKicksBot bots ev = .ok () := by
      unfold raiseIfHumanKicksBot
      rcases hguard with h | h
      · simp [h]
      · split_ifs <;> simp_all
    constructor
    · intro hnj
      unfold isLeaveAllowed
      rw [hbot]
      have hci : ¬ (memberOf ae ev.sender = some MembershipState.invite ∧ ev.stateKey = ev.sender) := by
        intro h
        exact hkick h.2
      simp [hci, hnj]
    · intro hj
      unfold isLeaveAllowed
      rw [hbot]
      have hinv : ¬ (memberOf ae ev.sender = some MembershipState.invite ∧ ev.stateKey = ev.sender) := by
        intro h
        exact hkick h.2
      have htb : ¬ (memberOf ae ev.stateKey = some MembershipState.ban
          ∧ getUserPowerLevel ae ev.sender < getNamedLevel (fun pl => pl.banLevel) 50 ae) := by
        intro h
        exact hnb h.1
      by_cases hp : getUserPowerLevel ae ev.sender < getNamedLevel (fun pl => pl.kickLevel) 50 ae
          ∨ getUserPowerLevel ae ev.sender < getUserPowerLevel ae ev.stateKey
      · simp [hinv, hj, htb, hkick, hp]
      · simp [hinv, hj, htb, hkick, hp]

/-- Witness for C3: two admins at equal power 100 with kick level 50 — the
kick is allowed because the permitting comparison is non-strict. -/
theorem c3_witness :
    isLeaveAllowed (∅ : Finset UserId)
      { etype := memberEventType, membership := some MembershipState.leave,
        sender := "@a:s", stateKey := "@b:s", reason := none }
      { powerLevels := some { users := [("@a:s", 100), ("@b:s", 100)], kickLevel := some 50 },
        members := [("@a:s", MembershipState.join), ("@b:s", MembershipState.join)] }
      = Except.ok () :=
  ((((c3_kick_amended (∅ : Finset UserId)
      { etype := memberEventType, membership := some MembershipState.leave,
        sender := "@a:s", stateKey := "@b:s", reason := none }
      { powerLevels := some { users := [("@a:s", 100), ("@b:s", 100)], kickLevel := some 50 },
        members := [("@a:s", MembershipState.join), ("@b:s", MembershipState.join)] }
      (by decide) (by decide)).2 (Or.inr (by decide))).2 (by decide)).2).mpr (by decide)

/-- C2 (confirmed): for a power-levels change by a non-bot sender, the
change is denied (with the bot-demotion reason) when a bot is removed from
the level-100 admin set, and denied when no non-bot admin would remain; a
bot sender passes both patched checks unconditionally; and any change by a
non-bot sender accepted by the patched `_check_power_levels` (old state
present) leaves at least one non-bot user at level 100. -/
theorem c2_power_level_guard (bots : Finset UserId) (limitNotifications : Bool)
    (ev : Event) (newC curC : PLContent) (ae : AuthEvents) :
    (ev.sender ∉ bots →
       ((adminIds curC.users \ adminIds newC.users) ∩ bots).Nonempty →
       raiseIfHumanDemotesBotOrLastHuman bots ev.sender newC.users curC.users
         = .error AuthFailure.humanDemotesBot)
    ∧ (ev.sender ∉ bots → adminIds newC.users \ bots = ∅ →
       ∃ e, raiseIfHumanDemotesBotOrLastHuman bots ev.sender newC.users curC.users
         = .error e)
    ∧ (ev.sender ∈ bots →
       raiseIfHumanDemotesBotOrLastHuman bots ev.sender newC.users curC.users = .ok ())
    ∧ (ae.powerLevels = some curC → ev.sender ∉ bots →
       checkPowerLevels bots limitNotifications ev newC ae = .ok () →
       (adminIds newC.users \ bots).Nonempty) := by
  refine ⟨?_, ?_, ?_, ?_⟩
  · intro hs hrem
    unfold raiseIfHumanDemotesBotOrLastHuman
    simp [hs, hrem]
  · intro hs hempty
    unfold raiseIfHumanDemotesBotOrLastHuman
    simp only [hs, if_false]
    by_cases hrem : ((adminIds curC.users \ adminIds newC.users) ∩ bots).Nonempty
    · exact ⟨AuthFailure.humanDemotesBot, by simp [hrem]⟩
    · exact ⟨AuthFailure.noHumanAdminsLeft, by simp [hrem, hempty]⟩
  · intro hs
    unfold raiseIfHumanDemotesBotOrLastHuman
    simp [hs]
  · intro hpl hs hok
    rw [Finset.nonempty_iff_ne_empty]
    intro hempty
    unfold checkPowerLevels at hok
    rw [hpl] at hok
    have hguard : ∃ e, raiseIfHumanDemotesBotOrLastHuman bots ev.sender newC.users curC.users
        = .error e := by
      unfold raiseIfHumanDemotesBotOrLastHuman
      simp only [hs, if_false]
      by_cases hrem : ((adminIds curC.users \ adminIds newC.users) ∩ bots).Nonempty
      · exact ⟨AuthFailure.humanDemotesBot, by simp [hrem]⟩
      · exact ⟨AuthFailure.noHumanAdminsLeft, by simp [hrem, hempty]⟩
    obtain ⟨e, he⟩ := hguard
    simp [he] at hok

/-- Witness for C2: a concrete bot-sent change that strips every human
admin passes the patched guard. -/
theorem c2_witness :
    raiseIfHumanDemotesBotOrLastHuman ({"@bot:s"} : Finset UserId) "@bot:s"
      [("@bot:s", 100)] [("@a:s", 100), ("@bot:s", 100)] = Except.ok () :=
  (c2_power_level_guard ({"@bot:s"} : Finset UserId) false
    { etype := "m.room.power_levels", sender := "@bot:s", stateKey := "" }
    { users := [("@bot:s", 100)] } { users := [("@a:s", 100), ("@bot:s", 100)] }
    {}).2.2.1 (by decide)

theorem findSenderInRoom_cases (serverName : String) (inRoom : List UserId) (ev : Event)
    (c : PLContent) :
    ((lookupL ("@audiences_bot:" ++ serverName) c.users = some 100
        ∧ inRoom.contains ("@audiences_bot:" ++ serverName) = true)
       → findSenderInRoom serverName inRoom ev c = "@audiences_bot:" ++ serverName)
    ∧ (¬ (lookupL ("@audiences_bot:" ++ serverName) c.users = some 100
        ∧ inRoom.contains ("@audiences_bot:" ++ serverName) = true) →
        ((∃ a ∈ nonBotAdminIds ("@audiences_bot:" ++ serverName) c,
            inRoom.contains a = true) →
            (findSenderInRoom serverName inRoom ev c ≠ "@audiences_bot:" ++ serverName
             ∧ findSenderInRoom serverName inRoom ev c
                 ∈ nonBotAdminIds ("@audiences_bot:" ++ serverName) c
             ∧ inRoom.contains (findSenderInRoom serverName inRoom ev c) = true))
        ∧ ((∀ a ∈ nonBotAdminIds ("@audiences_bot:" ++ serverName) c,
            inRoom.contains a = false) →
            findSenderInRoom serverName inRoom ev c = ev.sender)) := by
  by_cases hb : lookupL ("@audiences_bot:" ++ serverName) c.users = some 100
      ∧ inRoom.contains ("@audiences_bot:" ++ serverName) = true
  · have hmemb : ("@audiences_bot:" ++ serverName) ∈ inRoom := by simpa using hb.2
    refine ⟨fun _ => ?_, fun hn => absurd hb hn⟩
    simp [findSenderInRoom, hb.1, hb.2, hmemb]
  · refine ⟨fun h => absurd h hb, fun _ => ?_⟩
    have hfs : findSenderInRoom serverName inRoom ev c
        = match (nonBotAdminIds ("@audiences_bot:" ++ serverName) c).find?
            (fun a => inRoom.contains a) with
          | some adminId => adminId
          | none => ev.sender := by
      simp only [findSenderInRoom]
      rw [if_neg hb]
    constructor
    · intro hadmin
      cases hf : (nonBotAdminIds ("@audiences_bot:" ++ serverName) c).find?
          (fun a => inRoom.contains a) with
      | none =>
        exfalso
        obtain ⟨a, ha, hain⟩ := hadmin
        rw [List.find?_eq_none] at hf
        exact absurd hain (by simpa using hf a ha)
      | some adminId =>
        have hmem := List.mem_of_find?_eq_some hf
        have hin : inRoom.contains adminId = true := by
          simpa using List.find?_some hf
        have hres : findSenderInRoom serverName inRoom ev c = adminId := by
          rw [hfs, hf]
        rw [hres]
        refine ⟨?_, hmem, hin⟩
        intro hEq
        rw [hEq] at hmem
        unfold nonBotAdminIds at hmem
        simp at hmem
    · intro hnone
      cases hf : (nonBotAdminIds ("@audiences_bot:" ++ serverName) c).find?
          (fun a => inRoom.contains a) with
      | none => rw [hfs, hf]
      | some adminId =>
        exfalso
        have hmem := List.mem_of_find?_eq_some hf
        have hin : inRoom.contains adminId = true := by
          simpa using List.find?_some hf
        rw [hnone adminId hmem] at hin
        exact Bool.false_ne_true hin

theorem lookupL_filter_ne (sk u : String) (l : List (String × Int)) :
    lookupL u (l.filter (fun p => p.1 ≠ sk)) = if u = sk then none else lookupL u l := by
  induction l with
  | nil => simp [lookupL]
  | cons p rest ih =>
    by_cases hp : p.1 = sk <;> by_cases hu : u = sk <;> by_cases hq : p.1 = u <;>
      simp_all [lookupL, List.find?_cons]

/-- C4 counterexample: a leave of a user holding level 50 (not 100) in a
non-archived room emits a replacement power-levels event — the claim would
require no emission for a non-admin — and, the new mapping having no
admins, the emitted sender is the sender of the leave event (here the kicker
`@k:s`), not the leaving user `@a:s`. -/
theorem c4_counterexample :
    onNewEvent ("s") false []
      { etype := memberEventType, membership := some MembershipState.leave,
        sender := "@k:s", stateKey := "@a:s" }
      { powerLevels := some { users := [("@a:s", 50)] } }
      = some { content := { users := [] }, sender := "@k:s" }
    ∧ lookupL ("@a:s") [(("@a:s" : String), (50 : Int))] ≠ some 100
    ∧ ("@k:s" : UserId) ≠ ("@a:s" : UserId) :=
  ⟨by decide, by decide, by decide⟩

/-- C4 (amended): for every leave member event processed with a
power-levels state present, exactly one replacement power-levels event is
emitted if and only if the leaving user has an entry (at any level, not
only 100) in the current users mapping and the room is not archived; the
emitted content equals the old content with the users entry of that user
removed; and the emitted sender is the management bot if it is at level 100
in the new mapping and present in the room, otherwise a non-bot level-100
user of the new mapping present in the room, otherwise the sender of the leave
event (which is the leaving user only for a self-leave). -/
theorem c4_reassignment_amended (serverName : String) (blocked : Bool)
    (inRoom : List UserId) (ev : Event) (ae : AuthEvents) (pl : PLContent)
    (hm : ev.etype = memberEventType)
    (hl : ev.membership = some MembershipState.leave)
    (hpl : ae.powerLevels = some pl) :
    ((onNewEvent serverName blocked inRoom ev ae).isSome
       ↔ (lookupL ev.stateKey pl.users ≠ none ∧ blocked = false))
    ∧ (∀ e, onNewEvent serverName blocked inRoom ev ae = some e →
        ((∀ u, lookupL u e.content.users
            = if u = ev.stateKey then none else lookupL u pl.users)
         ∧ e.content.events = pl.events
         ∧ e.content.usersDefault = pl.usersDefault
         ∧ e.content.kickLevel = pl.kickLevel
         ∧ e.content.banLevel = pl.banLevel
         ∧ ((lookupL ("@audiences_bot:" ++ serverName) e.content.users = some 100
              ∧ inRoom.contains ("@audiences_bot:" ++ serverName) = true)
             → e.sender = "@audiences_bot:" ++ serverName)
         ∧ (¬ (lookupL ("@audiences_bot:" ++ serverName) e.content.users = some 100
              ∧ inRoom.contains ("@audiences_bot:" ++ serverName) = true) →
             ((∃ a ∈ nonBotAdminIds ("@audiences_bot:" ++ serverName) e.content,
                  inRoom.contains a = true) →
                (e.sender ≠ "@audiences_bot:" ++ serverName
                 ∧ e.sender ∈ nonBotAdminIds ("@audiences_bot:" ++ serverName) e.content
                 ∧ inRoom.contains e.sender = true))
             ∧ ((∀ a ∈ nonBotAdminIds ("@audiences_bot:" ++ serverName) e.content,
                  inRoom.contains a = false) → e.sender = ev.sender)))) := by
  have hone : onNewEvent serverName blocked inRoom ev ae
      = deleteUserFromPowerLevels serverName blocked inRoom ev pl := by
    unfold onNewEvent
    simp [hm, hl, hpl]
  rw [hone]
  constructor
  · unfold deleteUserFromPowerLevels
    split_ifs with h1 h2 <;> simp_all
  · intro e he
    unfold deleteUserFromPowerLevels at he
    split_ifs at he with h1 h2
    have hc : e = EmittedPL.mk
        { pl with users := pl.users.filter (fun p => p.1 ≠ ev.stateKey) }
        (findSenderInRoom serverName inRoom ev
          { pl with users := pl.users.filter (fun p => p.1 ≠ ev.stateKey) }) :=
      (Option.some.inj he).symm
    subst hc
    have hsc := findSenderInRoom_cases serverName inRoom ev
      { pl with users := pl.users.filter (fun p => p.1 ≠ ev.stateKey) }
    exact ⟨fun u => lookupL_filter_ne ev.stateKey u pl.users, rfl, rfl, rfl, rfl,
      hsc.1, hsc.2⟩

/-- Witness for C4: the leave of admin `@a:s` in a non-archived room with
the other admin `@b:s` present emits a replacement event. -/
theorem c4_witness :
    (onNewEvent ("s") false ["@b:s"]
      { etype := memberEventType, membership := some MembershipState.leave,
        sender := "@a:s", stateKey := "@a:s" }
      { powerLevels := some { users := [("@a:s", 100), ("@b:s", 100)] } }).isSome = true :=
  (c4_reassignment_amended ("s") false ["@b:s"]
    { etype := memberEventType, membership := some MembershipState.leave,
      sender := "@a:s", stateKey := "@a:s" }
    { powerLevels := some { users := [("@a:s", 100), ("@b:s", 100)] } }
    { users := [("@a:s", 100), ("@b:s", 100)] }
    rfl rfl rfl).1.mpr ⟨by decide, rfl⟩

/-- C5 counterexample: desired = {"@b:s"}, invited = {"@b:s"}, joined = ∅.
The code invites "@b:s" again (the to-add comprehension filters against the
joined set only), while the invite set of the claim, desired minus
(invited ∪ joined), is empty. -/
theorem c5_counterexample :
    membersToAdd ({"@b:s"} : Finset UserId) (∅ : Finset UserId) = ({"@b:s"} : Finset UserId)
    ∧ ({"@b:s"} : Finset UserId) \ (({"@b:s"} : Finset UserId) ∪ (∅ : Finset UserId)) = ∅ :=
  ⟨by decide, by decide⟩

/-- C5 (amended): the set of users to invite equals desired minus joined
(not minus invited ∪ joined; empty identifiers dropped), the set of users
to remove equals (invited ∪ joined) minus desired minus the bot registry
(empty identifiers dropped), and in the action sequence every invite
precedes every removal. -/
theorem c5_diff_amended (desired invited joined bots : Finset UserId) :
    membersToAdd desired joined = (desired \ joined).erase ""
    ∧ membersToRemove desired invited joined bots
        = (((invited ∪ joined) \ desired) \ bots).erase ""
    ∧ (∀ m, ReconcileAction.inviteUser m ∈ processBatchMemberships desired invited joined bots
        ↔ (m ∈ desired ∧ m ∉ joined ∧ m ≠ ""))
    ∧ (∀ m, ReconcileAction.leaveUser m ∈ processBatchMemberships desired invited joined bots
        ↔ (m ∈ invited ∪ joined ∧ m ∉ desired ∧ m ∉ bots ∧ m ≠ ""))
    ∧ (∃ (adds removes : List UserId), processBatchMemberships desired invited joined bots
        = adds.map ReconcileAction.inviteUser ++ removes.map ReconcileAction.leaveUser) := by
  refine ⟨?_, ?_, ?_, ?_, ?_⟩
  · ext m
    simp [membersToAdd, Finset.mem_erase, Finset.mem_sdiff, Finset.mem_filter]
    tauto
  · ext m
    simp [membersToRemove, Finset.mem_erase, Finset.mem_sdiff, Finset.mem_filter,
      Finset.mem_union]
    tauto
  · intro m
    simp [processBatchMemberships, membersToAdd, Finset.mem_sort, Finset.mem_filter]
    tauto
  · intro m
    simp [processBatchMemberships, membersToRemove, Finset.mem_sort, Finset.mem_filter,
      Finset.mem_union]
    tauto
  · refine Exists.intro ((membersToAdd desired joined).sort (· ≤ ·)) ?_
    refine Exists.intro ((membersToRemove desired invited joined bots).sort (· ≤ ·)) ?_
    rfl

/-- Witness for C5: a concrete instance of the amended diff equations. -/
theorem c5_witness :
    membersToAdd ({"@c:s"} : Finset UserId) (∅ : Finset UserId)
      = ((({"@c:s"} : Finset UserId) \ (∅ : Finset UserId)).erase "") :=
  (c5_diff_amended ({"@c:s"} : Finset UserId) ∅ ∅ ∅).1

/-- C9 counterexample: desired = {"@a:s"}, nothing invited or joined, no
bots. The first run invites "@a:s"; with no intervening change (in
particular the invite not yet accepted) the invite set of the second run is
again nonempty, so the second diff is not empty. -/
theorem c9_counterexample :
    applyReconcileRun ({"@a:s"} : Finset UserId) ∅ ∅ ∅ = ({"@a:s"}, ∅)
    ∧ membersToAdd ({"@a:s"} : Finset UserId)
        (applyReconcileRun ({"@a:s"} : Finset UserId) ∅ ∅ ∅).2 ≠ ∅ :=
  ⟨by decide, by decide⟩

/-- C9 (amended): after one successful reconcile run with no intervening
change, the second run computes an empty removal set, and an invite set
equal to the invite set of the first run (desired users not yet joined are
re-invited); the whole second diff is therefore empty exactly when the
first invite set was empty. -/
theorem c9_second_run_amended (desired invited joined bots : Finset UserId) :
    membersToRemove desired (applyReconcileRun desired invited joined bots).1
      (applyReconcileRun desired invited joined bots).2 bots = ∅
    ∧ membersToAdd desired (applyReconcileRun desired invited joined bots).2
        = membersToAdd desired joined := by
  constructor
  · ext m
    simp [membersToRemove, membersToAdd, applyReconcileRun, Finset.mem_filter,
      Finset.mem_sdiff, Finset.mem_union]
    tauto
  · ext m
    simp [membersToRemove, membersToAdd, applyReconcileRun, Finset.mem_filter,
      Finset.mem_sdiff, Finset.mem_union]
    tauto

/-- Witness for C9: a concrete instance of the amended second-run diff —
the removal half of the second run is empty. -/
theorem c9_witness :
    membersToRemove ({"@a:s"} : Finset UserId)
      (applyReconcileRun ({"@a:s"} : Finset UserId) ∅ ∅ ∅).1
      (applyReconcileRun ({"@a:s"} : Finset UserId) ∅ ∅ ∅).2 ∅ = ∅ :=
  (c9_second_run_amended ({"@a:s"} : Finset UserId) ∅ ∅ ∅).1

/-- C6 (code-bug evidence): an UnstableSpecAuthError whose message is a
NOT_JOINED authorization denial — not an already-in-the-room notice — is
silently swallowed by `_process_batch_memberships_type`, and the batch
continues with the next member instead of aborting: the handler body
`if "already in the room" in str(e.msg): pass` does nothing in either
branch of its conditional. -/
theorem c6_swallowed_denial :
    processBatchMembershipsType
      (fun mxid _ =>
        if mxid = "@a:s" then
          Except.error (MembershipCallError.unstableAuth ("M_NOT_JOINED")
            ("@audiences_bot:s not in room !r:s."))
        else Except.ok ())
      ["@a:s", "@b:s"]
      = { attempted := ["@a:s", "@b:s"], sleeps := [], err := none } := by rfl

theorem updateMembershipsDirectly_skip (bots : List UserId) (requester : UserId)
    (upd : UserId → Except MembershipCallError Unit) (archive : Bool)
    (u : UserId) (m : MembershipState) (rest : List (UserId × MembershipState))
    (hq : qualifiesForChange bots requester (u, m) = false) :
    updateMembershipsDirectly bots requester upd archive ((u, m) :: rest)
      = updateMembershipsDirectly bots requester upd archive rest := by
  simp only [updateMembershipsDirectly]
  by_cases h1 : bots.contains u = true
  · rw [if_pos h1]
  · rw [if_neg h1]
    by_cases h2 : m = MembershipState.join ∨ m = MembershipState.leave
        ∨ m = MembershipState.invite
    · rw [if_pos h2]
      by_cases h3 : u = requester
      · rw [if_pos h3]
      · exfalso
        have hb : bots.contains u = false := by
          revert h1
          cases bots.contains u <;> simp
        have hb2 : u ∉ bots := by simpa using hb
        have hm2 : (m == MembershipState.join || m == MembershipState.leave
            || m == MembershipState.invite) = true := by
          rcases h2 with hc | hc | hc <;> simp [hc]
        simp [qualifiesForChange, hb2, hm2, h3] at hq
    · rw [if_neg h2]

theorem updateMembershipsDirectly_process (bots : List UserId) (requester : UserId)
    (upd : UserId → Except MembershipCallError Unit) (archive : Bool)
    (u : UserId) (m : MembershipState) (rest : List (UserId × MembershipState))
    (hq : qualifiesForChange bots requester (u, m) = true) :
    updateMembershipsDirectly bots requester upd archive ((u, m) :: rest)
      = match upd u with
        | .ok _ =>
          { issued := u :: (updateMembershipsDirectly bots requester upd archive rest).issued,
            forgotten := (if archive then [u] else [])
              ++ (updateMembershipsDirectly bots requester upd archive rest).forgotten,
            err := (updateMembershipsDirectly bots requester upd archive rest).err }
        | .error (.unstableAuth _ _) =>
          { issued := u :: (updateMembershipsDirectly bots requester upd archive rest).issued,
            forgotten := (updateMembershipsDirectly bots requester upd archive rest).forgotten,
            err := (updateMembershipsDirectly bots requester upd archive rest).err }
        | .error e => { issued := [u], forgotten := [], err := some e } := by
  have hb : bots.contains u = false := by
    revert hq
    unfold qualifiesForChange
    cases bots.contains u <;> simp
  have hm : m = MembershipState.join ∨ m = MembershipState.leave
      ∨ m = MembershipState.invite := by
    revert hq
    unfold qualifiesForChange
    cases m <;> simp
  have hr : ¬ u = requester := by
    revert hq
    unfold qualifiesForChange
    by_cases h : u = requester <;> simp [h]
  simp only [updateMembershipsDirectly]
  rw [if_neg (by rw [hb]; simp), if_pos hm, if_neg hr]

theorem updateMembershipsDirectly_all_ok (bots : List UserId) (requester : UserId)
    (upd : UserId → Except MembershipCallError Unit) (archive : Bool)
    (users : List (UserId × MembershipState))
    (h : ∀ u e, upd u = .error e → e.isUnstableAuth = true) :
    (updateMembershipsDirectly bots requester upd archive users).err = none
    ∧ (updateMembershipsDirectly bots requester upd archive users).issued
        = (users.filter (qualifiesForChange bots requester)).map (fun p => p.1) := by
  induction users with
  | nil => exact ⟨rfl, rfl⟩
  | cons p rest ih =>
    obtain ⟨u, m⟩ := p
    by_cases hq : qualifiesForChange bots requester (u, m) = true
    · rw [updateMembershipsDirectly_process bots requester upd archive u m rest hq,
        List.filter_cons_of_pos hq]
      cases hu : upd u with
      | ok v => simp [ih.1, ih.2]
      | error e =>
        cases e with
        | unstableAuth ec msg => simp [ih.1, ih.2]
        | limitExceeded r =>
          have := h u _ hu
          simp [MembershipCallError.isUnstableAuth] at this
        | authError msg =>
          have := h u _ hu
          simp [MembershipCallError.isUnstableAuth] at this
        | otherError msg =>
          have := h u _ hu
          simp [MembershipCallError.isUnstableAuth] at this
    · have hq2 : qualifiesForChange bots requester (u, m) = false := by
        revert hq
        cases qualifiesForChange bots requester (u, m) <;> simp
      rw [updateMembershipsDirectly_skip bots requester upd archive u m rest hq2,
        List.filter_cons_of_neg (by simp [hq2])]
      exact ih

theorem updateMembershipsDirectly_err_not_unstable (bots : List UserId) (requester : UserId)
    (upd : UserId → Except MembershipCallError Unit) (archive : Bool)
    (users : List (UserId × MembershipState)) :
    ∀ e, (updateMembershipsDirectly bots requester upd archive users).err = some e →
      e.isUnstableAuth = false := by
  induction users with
  | nil => intro e he; simp [updateMembershipsDirectly] at he
  | cons p rest ih =>
    obtain ⟨u, m⟩ := p
    intro e he
    by_cases hq : qualifiesForChange bots requester (u, m) = true
    · rw [updateMembershipsDirectly_process bots requester upd archive u m rest hq] at he
      cases hu : upd u with
      | ok v =>
        rw [hu] at he
        exact ih e he
      | error f =>
        cases f with
        | unstableAuth ec msg =>
          rw [hu] at he
          exact ih e he
        | limitExceeded r =>
          rw [hu] at he
          simp at he
          rw [← he]
          rfl
        | authError msg =>
          rw [hu] at he
          simp at he
          rw [← he]
          rfl
        | otherError msg =>
          rw [hu] at he
          simp at he
          rw [← he]
          rfl
    · have hq2 : qualifiesForChange bots requester (u, m) = false := by
        revert hq
        cases qualifiesForChange bots requester (u, m) <;> simp
      rw [updateMembershipsDirectly_skip bots requester upd archive u m rest hq2] at he
      exact ih e he

/-- C7 counterexample: with members "@a:s" and "@b:s" both joined and the
update call failing for "@a:s" with an error that is not an
UnstableSpecAuthError, the bulk-archive loop aborts: the error propagates
and no call is issued for "@b:s", whereas the claim requires the error to
be logged and only the transition of that user skipped. -/
theorem c7_counterexample :
    updateMembershipsDirectly [] "@r:s"
      (fun u => if u = "@a:s" then Except.error (MembershipCallError.otherError ("boom"))
        else Except.ok ())
      true [("@a:s", MembershipState.join), ("@b:s", MembershipState.join)]
      = { issued := ["@a:s"], forgotten := [],
          err := some (MembershipCallError.otherError ("boom")) } := by rfl

/-- C7 (amended): during bulk archive eviction, a per-user
UnstableSpecAuthError is swallowed and processing continues (when every
update call either succeeds or fails with an UnstableSpecAuthError, the
batch finishes with no error and an update call issued for every
qualifying member); any other per-user error propagates and aborts the
remainder of the batch — in particular, any error that escapes the loop is
never an UnstableSpecAuthError. -/
theorem c7_archive_error_containment_amended (bots : List UserId) (requester : UserId)
    (upd : UserId → Except MembershipCallError Unit) (archive : Bool)
    (users : List (UserId × MembershipState)) :
    ((∀ u e, upd u = .error e → e.isUnstableAuth = true) →
        ((updateMembershipsDirectly bots requester upd archive users).err = none
         ∧ (updateMembershipsDirectly bots requester upd archive users).issued
             = (users.filter (qualifiesForChange bots requester)).map (fun p => p.1)))
    ∧ (∀ e, (updateMembershipsDirectly bots requester upd archive users).err = some e →
        e.isUnstableAuth = false) :=
  ⟨fun h => updateMembershipsDirectly_all_ok bots requester upd archive users h,
   updateMembershipsDirectly_err_not_unstable bots requester upd archive users⟩

/-- Witness for C7: a batch whose only failure is an UnstableSpecAuthError
finishes with no error. -/
theorem c7_witness :
    (updateMembershipsDirectly [] "@r:s"
      (fun u => if u = "@a:s" then
          Except.error (MembershipCallError.unstableAuth ("M_FORBIDDEN")
            ("@a:s is already in the room."))
        else Except.ok ())
      true [("@a:s", MembershipState.join), ("@b:s", MembershipState.join)]).err = none :=
  ((c7_archive_error_containment_amended [] "@r:s"
      (fun u => if u = "@a:s" then
          Except.error (MembershipCallError.unstableAuth ("M_FORBIDDEN")
            ("@a:s is already in the room."))
        else Except.ok ())
      true [("@a:s", MembershipState.join), ("@b:s", MembershipState.join)]).1
    (by
      intro u e hu
      by_cases hc : u = "@a:s"
      · simp [hc] at hu
        rw [← hu]
        rfl
      · simp [hc] at hu)).1

theorem handlePut_archive_effects_eq (bots : List UserId) (requester : UserId)
    (upd : UserId → Except MembershipCallError Unit) (audiencesEnabled : Bool)
    (users : List (UserId × MembershipState)) (joinRulePublic : Bool)
    (h : ∀ u e, upd u = .error e → e.isUnstableAuth = true) :
    (handlePut bots requester upd audiencesEnabled users joinRulePublic true).1
      = ArchiveEffect.blockRoom requester
        :: (((users.filter (qualifiesForChange bots requester)).map (fun p => p.1)).map
            (fun u => ArchiveEffect.membershipChange u MembershipState.leave)
          ++ (if joinRulePublic then [ArchiveEffect.setRoomIsPublic false] else [])) := by
  have ho := updateMembershipsDirectly_all_ok bots requester upd true users h
  simp [handlePut, ho.1, ho.2]

theorem handlePut_membershipChange_mem (bots : List UserId) (requester : UserId)
    (upd : UserId → Except MembershipCallError Unit) (audiencesEnabled : Bool)
    (users : List (UserId × MembershipState)) (joinRulePublic : Bool)
    (h : ∀ u e, upd u = .error e → e.isUnstableAuth = true) (u : UserId)
    (a : MembershipState) :
    ArchiveEffect.membershipChange u a
        ∈ (handlePut bots requester upd audiencesEnabled users joinRulePublic true).1
      ↔ (a = MembershipState.leave
         ∧ ∃ m, (u, m) ∈ users ∧ qualifiesForChange bots requester (u, m) = true) := by
  rw [handlePut_archive_effects_eq bots requester upd audiencesEnabled users joinRulePublic h]
  constructor
  · intro hm2
    rcases List.mem_cons.mp hm2 with hc | hc
    · simp at hc
    · rcases List.mem_append.mp hc with hc2 | hc2
      · obtain ⟨x, hx, hxe⟩ := List.mem_map.mp hc2
        obtain ⟨hxu, hxa⟩ := ArchiveEffect.membershipChange.inj hxe
        subst hxu
        refine ⟨hxa.symm, ?_⟩
        obtain ⟨p, hp, hpe⟩ := List.mem_map.mp hx
        obtain ⟨pa, pb⟩ := p
        obtain ⟨hp1, hp2⟩ := List.mem_filter.mp hp
        dsimp at hpe
        subst hpe
        exact ⟨pb, hp1, hp2⟩
      · exfalso
        by_cases hj : joinRulePublic = true
        · rw [if_pos hj] at hc2
          simp at hc2
        · rw [if_neg hj] at hc2
          simp at hc2
  · rintro ⟨ha, m, hmem2, hq⟩
    subst ha
    exact List.mem_cons_of_mem _ (List.mem_append.mpr (Or.inl
      (List.mem_map.mpr ⟨u, List.mem_map.mpr ⟨(u, m), List.mem_filter.mpr ⟨hmem2, hq⟩, rfl⟩,
        rfl⟩)))

/-- C8 (confirmed): archiving a room first blocks it (the archived flag,
first effect), then issues a leave exactly for every non-bot local member
other than the requester whose membership is joined, left or invited; bot
members and the requester receive no membership change; and when the join rule of
the room is public the is-public flag is set to false (assuming every
update call succeeds or fails with the swallowed already-in-state
error). -/
theorem c8_archive_effects (bots : List UserId) (requester : UserId)
    (upd : UserId → Except MembershipCallError Unit) (audiencesEnabled : Bool)
    (users : List (UserId × MembershipState)) (joinRulePublic : Bool)
    (h : ∀ u e, upd u = .error e → e.isUnstableAuth = true) :
    (handlePut bots requester upd audiencesEnabled users joinRulePublic true).2 = none
    ∧ (handlePut bots requester upd audiencesEnabled users joinRulePublic true).1.head?
        = some (ArchiveEffect.blockRoom requester)
    ∧ (∀ u, ArchiveEffect.membershipChange u MembershipState.leave
          ∈ (handlePut bots requester upd audiencesEnabled users joinRulePublic true).1
        ↔ ∃ m, (u, m) ∈ users ∧ qualifiesForChange bots requester (u, m) = true)
    ∧ (∀ u a, u ∈ bots → ArchiveEffect.membershipChange u a
        ∉ (handlePut bots requester upd audiencesEnabled users joinRulePublic true).1)
    ∧ (∀ a, ArchiveEffect.membershipChange requester a
        ∉ (handlePut bots requester upd audiencesEnabled users joinRulePublic true).1)
    ∧ (joinRulePublic = true → ArchiveEffect.setRoomIsPublic false
        ∈ (handlePut bots requester upd audiencesEnabled users joinRulePublic true).1)
    ∧ ArchiveEffect.setRoomIsPublic true
        ∉ (handlePut bots requester upd audiencesEnabled users joinRulePublic true).1 := by
  have heq := handlePut_archive_effects_eq bots requester upd audiencesEnabled users
    joinRulePublic h
  have hmem := handlePut_membershipChange_mem bots requester upd audiencesEnabled users
    joinRulePublic h
  refine ⟨?_, ?_, ?_, ?_, ?_, ?_, ?_⟩
  · have ho := updateMembershipsDirectly_all_ok bots requester upd true users h
    simp [handlePut, ho.1]
  · rw [heq]
    rfl
  · intro u
    rw [hmem u MembershipState.leave]
    simp
  · intro u a hu hc
    rw [hmem u a] at hc
    obtain ⟨ha, m, hmem2, hq⟩ := hc
    have hb : bots.contains u = false := by
      revert hq
      unfold qualifiesForChange
      cases bots.contains u <;> simp
    exact absurd hu (by simpa using hb)
  · intro a hc
    rw [hmem requester a] at hc
    obtain ⟨ha, m, hmem2, hq⟩ := hc
    revert hq
    unfold qualifiesForChange
    simp
  · intro hj
    rw [heq]
    simp [hj]
  · intro hc
    rw [heq] at hc
    rcases List.mem_cons.mp hc with hc2 | hc2
    · simp at hc2
    · rcases List.mem_append.mp hc2 with h2 | h2
      · obtain ⟨x, hx, hxe⟩ := List.mem_map.mp h2
        simp at hxe
      · by_cases hj : joinRulePublic = true
        · rw [if_pos hj] at h2
          simp at h2
        · rw [if_neg hj] at h2
          simp at h2

/-- Witness for C8: the spec scenario — a room with the requester, a human
member "@a:s" and a bot; archiving blocks the room, issues a leave for
"@a:s" only, and clears the public flag. -/
theorem c8_witness :
    (handlePut ["@bot:s"] "@r:s" (fun _ => Except.ok ()) false
      [("@r:s", MembershipState.join), ("@a:s", MembershipState.join),
       ("@bot:s", MembershipState.join)] true true).2 = none :=
  (c8_archive_effects ["@bot:s"] "@r:s" (fun _ => Except.ok ()) false
    [("@r:s", MembershipState.join), ("@a:s", MembershipState.join),
     ("@bot:s", MembershipState.join)] true
    (fun _ _ hu => Except.noConfusion hu)).1

end SynapseModules
